import Mathlib

/-!
Verification of the minimal LaTeX editor (`tex_project.py`): a shallow
embedding of its highlighter, clipboard handling, file I/O and compiler
invocation, with theorems checking the natural-language specification.
-/

set_option autoImplicit false
set_option maxRecDepth 8000

namespace TexProject

/-! ## Character formats

`QTextCharFormat` as used by the highlighter: the source only ever sets a
foreground color, a font weight, and an italic flag; a freshly constructed
format leaves all three unset.  `QFont.Weight.Bold` is the numeric weight 700.
-/

structure CharFormat where
  foreground : Option String
  fontWeight : Option Nat
  fontItalic : Option Bool
deriving DecidableEq, Repr

/-- A default-constructed `QTextCharFormat`: nothing set. -/
def emptyFormat : CharFormat := ⟨none, none, none⟩

/-- Format for `\\[a-zA-Z]+` (commands): `#006699`, bold. -/
def command_format : CharFormat := ⟨some "#006699", some 700, none⟩

/-- Format for `[{}]` (braces): `#AA4400`. -/
def brace_format : CharFormat := ⟨some "#AA4400", none, none⟩

/-- Format for `\$[^$]*\$` (inline math): `#990099`. -/
def math_format : CharFormat := ⟨some "#990099", none, none⟩

/-- Format for `%[^\n]*` (comments): `#888888`, italic. -/
def comment_format : CharFormat := ⟨some "#888888", none, some true⟩

/-- Format for `\\(begin|end)\{[^}]+\}` (environments): `#007744`, bold. -/
def env_format : CharFormat := ⟨some "#007744", some 700, none⟩

/-! ## The five regular expressions

Each pattern of `LatexHighlighter.__init__` is embedded as an anchored
matcher: given the suffix of the line starting at the current scan position,
it returns the length of the (greedy, Python-`re` semantics) match starting
exactly there, or `none`.  All five patterns only match non-empty spans.
-/

/-- Length of the longest run of characters satisfying `p` at the head. -/
def takeWhileLen (p : Char → Bool) : List Char → Nat
  | [] => 0
  | c :: rest => if p c then takeWhileLen p rest + 1 else 0

/-- Anchored match of `\\[a-zA-Z]+`: a backslash followed by one or more
ASCII letters (greedy). -/
def matchCommandAt : List Char → Option Nat
  | '\\' :: rest =>
    let n := takeWhileLen Char.isAlpha rest
    if n = 0 then none else some (n + 1)
  | _ => none

/-- Anchored match of `[{}]`: a single brace character. -/
def matchBraceAt : List Char → Option Nat
  | c :: _ => if c = '\x7b' ∨ c = '\x7d' then some 1 else none
  | [] => none

/-- Anchored match of `\$[^$]*\$`: a dollar, a greedy run of non-dollar
characters, then a closing dollar (which must exist). -/
def matchMathAt : List Char → Option Nat
  | '$' :: rest =>
    let n := takeWhileLen (fun c => c != '$') rest
    if n < rest.length then some (n + 2) else none
  | _ => none

/-- Anchored match of `%[^\n]*`: a percent sign through the last following
non-newline character (the block text passed per line contains no newline,
so this runs to end of line). -/
def matchCommentAt : List Char → Option Nat
  | '%' :: rest => some (takeWhileLen (fun c => c != '\n') rest + 1)
  | _ => none

/-- Anchored match of `\\(begin|end)\{[^}]+\}`: backslash, `begin` or `end`,
an opening brace, a non-empty greedy run of non-closing-brace characters,
then the closing brace (which must exist). -/
def matchEnvAt : List Char → Option Nat
  | '\\' :: rest =>
    let key : Option (Nat × List Char) :=
      if rest.take 5 = ['b', 'e', 'g', 'i', 'n'] then some (5, rest.drop 5)
      else if rest.take 3 = ['e', 'n', 'd'] then some (3, rest.drop 3)
      else none
    match key with
    | some (k, '\x7b' :: body) =>
      let n := takeWhileLen (fun c => c != '\x7d') body
      if n = 0 then none
      else if n < body.length then some (k + n + 3) else none
    | _ => none
  | _ => none

/-- Scanner for `findIter`: walk the line one character at a time;
`skip > 0` means the current position is still inside the previous match,
so no match is attempted there (matches never overlap).  At a position
open for matching, a match of length `n` is recorded as the half-open span
`(pos, pos + n)` and the next `n - 1` characters are skipped, so the scan
resumes at the match's end — exactly `re.finditer`'s behavior.  (All five
matchers above only produce matches of length at least 1.) -/
def findIterGo (m : List Char → Option Nat) : List Char → Nat → Nat → List (Nat × Nat)
  | [], _, _ => []
  | _ :: rest, pos, s + 1 => findIterGo m rest (pos + 1) s
  | c :: rest, pos, 0 =>
    match m (c :: rest) with
    | some n => (pos, pos + n) :: findIterGo m rest (pos + 1) (n - 1)
    | none => findIterGo m rest (pos + 1) 0

/-- `re.finditer` over a line: the leftmost, non-overlapping matches of
the anchored matcher `m`, scanning left to right from position `pos`. -/
def findIter (m : List Char → Option Nat) (l : List Char) (pos : Nat) : List (Nat × Nat) :=
  findIterGo m l pos 0

/-! ## The rule list and `highlightBlock` -/

/-- The five highlighting rules, identified in the order
`LatexHighlighter.__init__` appends them. -/
inductive RuleId
  | command
  | brace
  | math
  | comment
  | env
deriving DecidableEq, BEq, Repr

/-- The pattern of each rule. -/
def ruleMatcher : RuleId → (List Char → Option Nat)
  | .command => matchCommandAt
  | .brace => matchBraceAt
  | .math => matchMathAt
  | .comment => matchCommentAt
  | .env => matchEnvAt

/-- The format of each rule. -/
def ruleFormat : RuleId → CharFormat
  | .command => command_format
  | .brace => brace_format
  | .math => math_format
  | .comment => comment_format
  | .env => env_format

/-- `self.highlighting_rules`, in append order. -/
def highlighting_rules : List RuleId :=
  [.command, .brace, .math, .comment, .env]

/-- Helper for `setFormat`: the per-character formats of the block,
with the element at list offset `j` carrying absolute index `i + j`;
positions inside `[start, start + count)` are overwritten with `f`. -/
def setFormatFrom (start count : Nat) (f : CharFormat) : Nat → List CharFormat → List CharFormat
  | _, [] => []
  | i, old :: rest =>
    (if start ≤ i ∧ i < start + count then f else old) :: setFormatFrom start count f (i + 1) rest

/-- `QSyntaxHighlighter.setFormat start count f`: overwrite the format of
every character position in `[start, start + count)`. -/
def setFormat (fmts : List CharFormat) (start count : Nat) (f : CharFormat) : List CharFormat :=
  setFormatFrom start count f 0 fmts

/-- Apply one rule's matches in scan order, each via `setFormat`. -/
def applySpans (f : CharFormat) : List (Nat × Nat) → List CharFormat → List CharFormat
  | [], fmts => fmts
  | sp :: rest, fmts => applySpans f rest (setFormat fmts sp.1 (sp.2 - sp.1) f)

/-- The body of the `for pattern, fmt in self.highlighting_rules` loop for
one rule. -/
def applyRule (text : List Char) (fmts : List CharFormat) (r : RuleId) : List CharFormat :=
  applySpans (ruleFormat r) (findIter (ruleMatcher r) text 0) fmts

/-- `LatexHighlighter.highlightBlock text`: starting from the cleared
per-character formats of the block, apply every rule in list order. -/
def highlightBlock (text : List Char) : List CharFormat :=
  highlighting_rules.foldl (applyRule text) (List.replicate text.length emptyFormat)

/-! ## Startup template and editor state -/

/-- `DEFAULT_LATEX_TEMPLATE`: the raw module-level string after `.strip()`
(the surrounding newlines of the raw literal are removed). -/
def DEFAULT_LATEX_TEMPLATE : String :=
  "\\documentclass[11pt]\x7barticle\x7d\n"
  ++ "\\usepackage[margin=1in]\x7bgeometry\x7d\n"
  ++ "\\usepackage\x7blistings\x7d\n"
  ++ "\\usepackage\x7bamsmath\x7d\n"
  ++ "\\usepackage\x7bamssymb\x7d\n"
  ++ "\\usepackage\x7bxcolor\x7d\n"
  ++ "\\usepackage\x7bhyperref\x7d\n"
  ++ "\\usepackage\x7benumitem\x7d\n"
  ++ "\n"
  ++ "\\definecolor\x7bgray\x7d\x7brgb\x7d\x7b0.5,0.5,0.5\x7d\n"
  ++ "\\definecolor\x7blightgray\x7d\x7brgb\x7d\x7b0.95,0.95,0.95\x7d\n"
  ++ "\\lstset\x7b\n"
  ++ "backgroundcolor=\\color\x7blightgray\x7d,\n"
  ++ "basicstyle=\\ttfamily\\footnotesize,\n"
  ++ "frame=single,\n"
  ++ "breaklines=true,\n"
  ++ "postbreak=\\mbox\x7b\\textcolor\x7bred\x7d\x7b$\\hookrightarrow$\x7d\\space\x7d,\n"
  ++ "keywordstyle=\\color\x7bblue\x7d,\n"
  ++ "commentstyle=\\color\x7bgray\x7d,\n"
  ++ "\x7d\n"
  ++ "\\title\x7b\x7d\n"
  ++ "\n"
  ++ "\\begin\x7bdocument\x7d\n"
  ++ "\n"
  ++ "\\maketitle\n"
  ++ "\n"
  ++ "\\section\x7b\x7d\n"
  ++ "\n"
  ++ "\n"
  ++ "\\end\x7bdocument\x7d"

/-- The mutable state of `MinimalLatexEditor` the file operations touch:
the text buffer of the editor widget (`toPlainText`/`setPlainText`) and
`self.current_file` (a path, or `None`). -/
structure EditorState where
  buffer : String
  current_file : Option String
deriving DecidableEq, Repr

/-- The state right after `MinimalLatexEditor.__init__`: the buffer holds
the default template and no current file is set. -/
def initState : EditorState :=
  { buffer := DEFAULT_LATEX_TEMPLATE, current_file := none }

/-- A message box shown to the user (`QMessageBox.information` /
`QMessageBox.critical`), with its title and text. -/
inductive Msg
  | info (title text : String)
  | critical (title text : String)
deriving DecidableEq, Repr

/-! ## Filesystem model

`Path.read_text` and `Path.write_text` are modelled on an explicit
filesystem: `contents p` is the readable UTF-8 text at path `p` (`none`
means reading raises an `OSError`), `writable p` says whether writing to
`p` succeeds (`false` means writing raises), and `errMsg p` is the text of
the exception raised by a failing operation on `p` (interpolated into the
error dialog by the `except` handlers). -/
structure FS where
  contents : String → Option String
  writable : String → Bool
  errMsg : String → String

/-- `Path(p).write_text(s, encoding="utf-8")` on success: full overwrite. -/
def writeFS (fs : FS) (p s : String) : FS :=
  { fs with contents := fun q => if q = p then some s else fs.contents q }

/-! ## File operations -/

/-- `MinimalLatexEditor.open_file`.  `file_path` is what
`QFileDialog.getOpenFileName` returned (the empty string when the user
cancelled, which Python's `if file_path:` treats as falsy).  Returns the
new editor state and the message boxes shown. -/
def open_file (st : EditorState) (fs : FS) (file_path : String) : EditorState × List Msg :=
  if file_path = "" then (st, [])
  else
    match fs.contents file_path with
    | some content => ({ buffer := content, current_file := some file_path }, [])
    | none => (st, [Msg.critical "Error" ("Could not open file:\n" ++ fs.errMsg file_path)])

/-- The `try: write_text ... except` block of `save_file`, run when
`self.current_file` is the path `p`. -/
def do_save (st : EditorState) (fs : FS) (p : String) : EditorState × FS × List Msg :=
  if fs.writable p then
    (st, writeFS fs p st.buffer, [Msg.info "Saved" ("File saved to:\n" ++ p)])
  else
    (st, fs, [Msg.critical "Error" ("Could not save file:\n" ++ fs.errMsg p)])

/-- `MinimalLatexEditor.save_file`.  `dialog_path` is what
`QFileDialog.getSaveFileName` would return if prompted (the empty string
when the user cancels); it is only consulted when no current file is set.
Returns the new editor state, the new filesystem, and the messages shown. -/
def save_file (st : EditorState) (fs : FS) (dialog_path : String) : EditorState × FS × List Msg :=
  match st.current_file with
  | none =>
    if dialog_path = "" then (st, fs, [])
    else do_save { st with current_file := some dialog_path } fs dialog_path
  | some p => do_save st fs p

/-! ## Compiler invocation -/

/-- `str(Path(p).parent)`, modelled from `pathlib` for forward-slash paths
without a trailing separator: drop the last path component; a bare file
name has parent `"."`. -/
def parentDir (p : String) : String :=
  let parts := p.splitOn "/"
  if parts.length ≤ 1 then "." else String.intercalate "/" parts.dropLast

/-- One child-process invocation: the executable, its arguments, the
working directory, and whether the caller blocks until the child exits
(`subprocess.run` does; `subprocess.Popen` does not). -/
structure Invocation where
  program : String
  args : List String
  cwd : String
  waits : Bool
deriving DecidableEq, Repr

/-- Whether `subprocess.run` managed to start the child.  A started child
yields an exit code (never inspected by the caller); a failed start models
the raised exception (e.g. `FileNotFoundError`), whose text is `err`. -/
inductive SpawnOutcome
  | started (exitCode : Int)
  | failed (err : String)
deriving DecidableEq, Repr

/-- `MinimalLatexEditor.compile_latex`: with no current file, only an info
box; otherwise run `tectonic <current_file>` in the file's parent
directory and wait, then report success if the invocation started and
failure if it raised.  Returns the attempted invocations and messages. -/
def compile_latex (st : EditorState) (outcome : SpawnOutcome) : List Invocation × List Msg :=
  match st.current_file with
  | none => ([], [Msg.info "Info" "No file to compile."])
  | some p =>
    let inv : Invocation := ⟨"tectonic", [p], parentDir p, true⟩
    match outcome with
    | .started _ => ([inv], [Msg.info "Success" "Compilation finished."])
    | .failed e => ([inv], [Msg.critical "Error" ("Compilation failed:\n" ++ e)])

/-! ## Clipboard paste -/

/-- A `QMimeData` clipboard payload as the paste override observes it:
whether a plain-text form exists (`hasText`), that plain-text form
(`text`), and any richer representation (images, styled text), which the
override never consults. -/
structure MimeData where
  hasText : Bool
  text : String
  rich : Option String
deriving DecidableEq, Repr

/-- What a paste does to the document. -/
inductive PasteAction
  | insertPlain (s : String)
  | defaultPaste
deriving DecidableEq, Repr

/-- `PlainTextEdit.insertFromMimeData`: insert the plain text if the
payload has one, otherwise defer to the toolkit's default handling. -/
def insertFromMimeData (source : MimeData) : PasteAction :=
  if source.hasText then PasteAction.insertPlain source.text else PasteAction.defaultPaste

/-- Whether `pat` occurs as a contiguous substring of the list. -/
def hasSub (pat : List Char) : List Char → Bool
  | [] => pat.isEmpty
  | l@(_ :: rest) => pat.isPrefixOf l || hasSub pat rest

/-- A concrete filesystem for evaluating the file operations: one readable
file `notes/a.tex` holding `"hello"`, everything writable except
`locked.tex`, and a fixed exception text. -/
def fsSample : FS :=
  { contents := fun q => if q = "notes/a.tex" then some "hello" else none
    writable := fun q => q != "locked.tex"
    errMsg := fun _ => "No such file or directory" }

/-! ## The spec's description of the highlighter

`spanHits sp j` says the half-open span `sp` covers position `j`;
`ruleCovers r text j` says some match of rule `r` on `text` covers `j`;
`specLastRuleStyle` is the spec's formula: the style of the last rule in
list order with a match covering the position, default if none. -/

/-- Span `sp = (start, stop)` covers position `j`. -/
def spanHits (sp : Nat × Nat) (j : Nat) : Bool :=
  decide (sp.1 ≤ j ∧ j < sp.2)

/-- Some match of rule `r` on `text` covers position `j`. -/
def ruleCovers (r : RuleId) (text : List Char) (j : Nat) : Bool :=
  (findIter (ruleMatcher r) text 0).any (fun sp => spanHits sp j)

/-- The spec's formula for the final style of a character: fold over the
rules in list order, replacing the accumulated style whenever the rule has
a match covering the position. -/
def specLastRuleStyle (text : List Char) (j : Nat) : CharFormat :=
  highlighting_rules.foldl
    (fun acc r => if ruleCovers r text j then ruleFormat r else acc) emptyFormat

theorem setFormatFrom_length (start count : Nat) (f : CharFormat) :
    ∀ (i : Nat) (fmts : List CharFormat),
    (setFormatFrom start count f i fmts).length = fmts.length := by
  intro i fmts
  induction fmts generalizing i with
  | nil => rfl
  | cons old rest ih => simp [setFormatFrom, ih]

theorem setFormatFrom_getD (start count : Nat) (f d : CharFormat) :
    ∀ (fmts : List CharFormat) (i j : Nat), j < fmts.length →
    (setFormatFrom start count f i fmts).getD j d =
      if start ≤ i + j ∧ i + j < start + count then f else fmts.getD j d := by
  intro fmts
  induction fmts with
  | nil => intro i j h; simp at h
  | cons old rest ih =>
    intro i j h
    cases j with
    | zero => simp [setFormatFrom]
    | succ j' =>
      have h' : j' < rest.length := by simpa using h
      simp only [setFormatFrom, List.getD_cons_succ]
      rw [ih (i + 1) j' h']
      rw [show i + 1 + j' = i + (j' + 1) from by omega]

theorem setFormat_length (fmts : List CharFormat) (start count : Nat) (f : CharFormat) :
    (setFormat fmts start count f).length = fmts.length :=
  setFormatFrom_length start count f 0 fmts

theorem setFormat_getD (fmts : List CharFormat) (start count : Nat) (f d : CharFormat)
    (j : Nat) (h : j < fmts.length) :
    (setFormat fmts start count f).getD j d =
      if start ≤ j ∧ j < start + count then f else fmts.getD j d := by
  simpa [setFormat] using setFormatFrom_getD start count f d fmts 0 j h

theorem applySpans_length (f : CharFormat) :
    ∀ (spans : List (Nat × Nat)) (fmts : List CharFormat),
    (applySpans f spans fmts).length = fmts.length := by
  intro spans
  induction spans with
  | nil => intro fmts; rfl
  | cons sp rest ih => intro fmts; rw [applySpans, ih, setFormat_length]

theorem applySpans_getD (f d : CharFormat) :
    ∀ (spans : List (Nat × Nat)) (fmts : List CharFormat) (j : Nat), j < fmts.length →
    (applySpans f spans fmts).getD j d =
      if spans.any (fun sp => spanHits sp j) then f else fmts.getD j d := by
  intro spans
  induction spans with
  | nil => intro fmts j h; simp [applySpans]
  | cons sp rest ih =>
    intro fmts j h
    rw [applySpans, ih _ j (by rw [setFormat_length]; exact h),
        setFormat_getD fmts sp.1 (sp.2 - sp.1) f d j h]
    have key : (sp.1 ≤ j ∧ j < sp.1 + (sp.2 - sp.1)) ↔ sp.1 ≤ j ∧ j < sp.2 := by omega
    have e1 : (if sp.1 ≤ j ∧ j < sp.1 + (sp.2 - sp.1) then f else fmts.getD j d)
        = if sp.1 ≤ j ∧ j < sp.2 then f else fmts.getD j d := if_congr key rfl rfl
    rw [e1, List.any_cons]
    cases hsp : spanHits sp j with
    | true =>
      have hcv : sp.1 ≤ j ∧ j < sp.2 := of_decide_eq_true hsp
      rw [if_pos hcv, ite_self, Bool.true_or]
      simp
    | false =>
      have hcv : ¬(sp.1 ≤ j ∧ j < sp.2) := of_decide_eq_false hsp
      rw [if_neg hcv, Bool.false_or]

theorem foldl_applyRule_length (text : List Char) :
    ∀ (rules : List RuleId) (fmts : List CharFormat),
    (rules.foldl (applyRule text) fmts).length = fmts.length := by
  intro rules
  induction rules with
  | nil => intro fmts; rfl
  | cons r rest ih =>
    intro fmts
    rw [List.foldl_cons, ih, applyRule, applySpans_length]

theorem foldl_applyRule_getD (text : List Char) (d : CharFormat) :
    ∀ (rules : List RuleId) (fmts : List CharFormat) (j : Nat), j < fmts.length →
    (rules.foldl (applyRule text) fmts).getD j d =
      rules.foldl (fun acc r => if ruleCovers r text j then ruleFormat r else acc)
        (fmts.getD j d) := by
  intro rules
  induction rules with
  | nil => intro fmts j h; rfl
  | cons r rest ih =>
    intro fmts j h
    rw [List.foldl_cons, List.foldl_cons,
        ih _ j (by rw [applyRule, applySpans_length]; exact h)]
    congr 1
    rw [applyRule, applySpans_getD _ d _ _ j h]
    rfl

theorem getD_replicate (n j : Nat) (d : CharFormat) :
    (List.replicate n d).getD j d = d := by
  induction n generalizing j with
  | zero => rfl
  | succ n ih =>
    cases j with
    | zero => rfl
    | succ j' =>
      simp only [List.replicate, List.getD_cons_succ]
      exact ih j'

/-! ## Claim theorems -/

/-- C1: for every input line, after `highlightBlock` scans it with the fixed
ordered rule list, the style recorded for each character position equals the
style of the last rule in list order whose pattern has a match covering that
position (rules are applied in list order, each match overwriting the
formatting on its span, so the last rule touching a character wins). -/
theorem highlight_last_rule_wins (text : List Char) (i : Nat) (h : i < text.length) :
    (highlightBlock text).getD i emptyFormat = specLastRuleStyle text i := by
  rw [highlightBlock,
      foldl_applyRule_getD text emptyFormat highlighting_rules _ i (by simpa using h),
      getD_replicate]
  rfl

theorem highlight_last_rule_wins_witness :
    (highlightBlock ("$x$".toList)).getD 1 emptyFormat = specLastRuleStyle ("$x$".toList) 1 :=
  highlight_last_rule_wins ("$x$".toList) 1 (by decide)

/-- C2: with a current file set, whenever the compiler process starts, the
generic success message is shown regardless of the child's exit code, and a
failure is reported exactly in the remaining case, namely when the
invocation itself raised (e.g. executable not found). -/
theorem compile_success_regardless_of_exit (b p : String) (code : Int) (e : String) :
    (compile_latex ⟨b, some p⟩ (SpawnOutcome.started code)).2
        = [Msg.info "Success" "Compilation finished."] ∧
    (compile_latex ⟨b, some p⟩ (SpawnOutcome.failed e)).2
        = [Msg.critical "Error" ("Compilation failed:\n" ++ e)] :=
  ⟨rfl, rfl⟩

/-- C3: an open whose read raises reports the error and leaves both the
buffer and the current-file path unchanged; a successful open replaces the
buffer with the file's text and sets the current-file path to the opened
path. -/
theorem open_file_failure_and_success (st : EditorState) (fs : FS) (p : String)
    (hp : p ≠ "") :
    (fs.contents p = none →
      open_file st fs p
        = (st, [Msg.critical "Error" ("Could not open file:\n" ++ fs.errMsg p)])) ∧
    (∀ c, fs.contents p = some c →
      open_file st fs p = ({ buffer := c, current_file := some p }, [])) := by
  constructor
  · intro hnone
    unfold open_file
    rw [if_neg hp, hnone]
  · intro c hc
    unfold open_file
    rw [if_neg hp, hc]

theorem open_file_failure_and_success_witness :
    open_file initState fsSample "missing.tex"
      = (initState,
         [Msg.critical "Error" ("Could not open file:\n" ++ fsSample.errMsg "missing.tex")]) ∧
    open_file initState fsSample "notes/a.tex"
      = ({ buffer := "hello", current_file := some "notes/a.tex" }, []) :=
  ⟨(open_file_failure_and_success initState fsSample "missing.tex" (by decide)).1 rfl,
   (open_file_failure_and_success initState fsSample "notes/a.tex" (by decide)).2 "hello" rfl⟩

/-- C4: a save with no current file set whose path prompt is cancelled
aborts silently: no write happens, no message is shown, and the editor
state is unchanged. -/
theorem save_cancel_silent_noop (b : String) (fs : FS) :
    save_file ⟨b, none⟩ fs "" = (⟨b, none⟩, fs, []) :=
  rfl

/-- C5: writing the buffer to the current file via save and immediately
reading that path back via open restores exactly the buffer's content
(Lean strings are equal precisely when their UTF-8 byte sequences are). -/
theorem save_open_round_trip (b p : String) (fs : FS)
    (hw : fs.writable p = true) (hne : p ≠ "") :
    open_file (save_file ⟨b, some p⟩ fs "").1 (save_file ⟨b, some p⟩ fs "").2.1 p
      = (⟨b, some p⟩, []) := by
  simp [save_file, do_save, hw, open_file, hne, writeFS]

theorem save_open_round_trip_witness :
    open_file (save_file ⟨"hello world", some "notes/a.tex"⟩ fsSample "").1
        (save_file ⟨"hello world", some "notes/a.tex"⟩ fsSample "").2.1 "notes/a.tex"
      = (⟨"hello world", some "notes/a.tex"⟩, []) :=
  save_open_round_trip "hello world" "notes/a.tex" fsSample (by decide) (by decide)

/-- C6: with a current file set, compile invokes the binary `tectonic` with
the current file's path as its sole argument, in the file's parent
directory as working directory, and waits for the child to exit — for
every spawn outcome. -/
theorem compile_invokes_tectonic (b p : String) (outcome : SpawnOutcome) :
    (compile_latex ⟨b, some p⟩ outcome).1
      = [{ program := "tectonic", args := [p], cwd := parentDir p, waits := true }] := by
  cases outcome <;> rfl

/-- C7: on the line `% comment $x$`, the Comment rule matches the whole
span from the `%` to end of line, the Math rule matches `$x$`, the Comment
rule sits after the Math rule in list order, and the final style of every
character of the line — in particular of the overlapping span 10–12 — is
the Comment style. -/
theorem comment_overrides_math_scenario :
    findIter (ruleMatcher RuleId.comment) ("% comment $x$".toList) 0 = [(0, 13)] ∧
    findIter (ruleMatcher RuleId.math) ("% comment $x$".toList) 0 = [(10, 13)] ∧
    List.indexOf RuleId.math highlighting_rules
      < List.indexOf RuleId.comment highlighting_rules ∧
    (∀ i ∈ List.range 13,
      (highlightBlock ("% comment $x$".toList)).getD i emptyFormat = comment_format) := by
  decide

/-- C8: a paste whose clipboard payload has a plain-text form inserts
exactly that plain text, whatever richer representation the payload also
carries; a payload with no text form falls through to the toolkit's
default paste handling. -/
theorem paste_inserts_plain_text_only (t : String) (rich : Option String) :
    insertFromMimeData ⟨true, t, rich⟩ = PasteAction.insertPlain t ∧
    (∀ t', insertFromMimeData ⟨false, t', rich⟩ = PasteAction.defaultPaste) :=
  ⟨rfl, fun _ => rfl⟩

/-- C9: at startup the buffer holds the built-in default LaTeX template —
which is non-empty, starts with `\documentclass`, and contains the
`\begin{document}`/`\end{document}` skeleton — and no current file is
set. -/
theorem startup_buffer_is_template :
    initState.buffer = DEFAULT_LATEX_TEMPLATE ∧
    initState.buffer ≠ "" ∧
    initState.current_file = none ∧
    DEFAULT_LATEX_TEMPLATE.toList.take 14 = "\\documentclass".toList ∧
    hasSub ("\\begin\x7bdocument\x7d".toList) DEFAULT_LATEX_TEMPLATE.toList = true ∧
    hasSub ("\\end\x7bdocument\x7d".toList) DEFAULT_LATEX_TEMPLATE.toList = true := by
  refine ⟨rfl, ?_, rfl, ?_, ?_, ?_⟩ <;> decide

/-- C10: a prompted save (no current file) sets the current-file path to
the chosen path before attempting the write, so when the write raises, the
current-file path nevertheless remains the newly chosen path while the
filesystem is unchanged and the error is reported. -/
theorem save_as_updates_path_before_write (b p : String) (fs : FS)
    (hp : p ≠ "") (hw : fs.writable p = false) :
    save_file ⟨b, none⟩ fs p
      = (⟨b, some p⟩, fs,
         [Msg.critical "Error" ("Could not save file:\n" ++ fs.errMsg p)]) := by
  simp [save_file, do_save, hp, hw]

theorem save_as_updates_path_before_write_witness :
    save_file initState fsSample "locked.tex"
      = (⟨DEFAULT_LATEX_TEMPLATE, some "locked.tex"⟩, fsSample,
         [Msg.critical "Error" ("Could not save file:\n" ++ fsSample.errMsg "locked.tex")]) :=
  save_as_updates_path_before_write DEFAULT_LATEX_TEMPLATE "locked.tex" fsSample
    (by decide) (by decide)

end TexProject
